import Mathlib

/-!
Shallow embedding of the image-to-sticker batch pipeline of `src/app.py`:
the prompt composer embedded in `process_images`, the two `AIService`
wrappers, the sidebar parameter assembly, and the per-image processing
loop with its progress accounting.  Remote model calls are modelled as
oracles returning `Option` (the wrappers catch every exception and
return `None`).  Python dictionaries keyed by image id are modelled as
total maps `ImageId → Option _`; Python truthiness of strings and lists
is modelled explicitly (`none`, `some ""` and `some []` are falsy).
-/

abbrev ImageId := Nat

abbrev ImgRef := String

/-- Run parameters assembled by `render_sidebar` (src/app.py:99-170). -/
structure RunParameters where
  prompt : String
  temperature : ℚ
  num_inference_steps : Nat
  num_images : Nat
  aspect_ratio : String
  line_sticker_mode : Bool
  sticker_style : Option String

/-- The two remote model calls of `AIService` (src/app.py:24-62); `none`
models the `except` branch: the wrapper catches the exception, shows an
error and returns `None`. -/
structure AIService where
  generate_text_from_image : ImageId → String → ℚ → Option String
  generate_image_from_text : String → Nat → Nat → String → Option (List ImgRef)

/-- The `sticker_style_prompts` dictionary (src/app.py:230-236). -/
def sticker_style_prompts : List (String × String) :=
  [("可愛卡通", "識別圖片中的主要人物、角色或物體，並詳細描述其特徵（如外觀、表情、姿勢等）。將其轉換為可愛卡通風格的LINE貼圖，保持相同的角色和表情特徵。"),
   ("簡約線條", "識別圖片中的主要人物、角色或物體，並詳細描述其特徵（如外觀、表情、姿勢等）。將其轉換為簡約線條風格的LINE貼圖，保持相同的角色和表情特徵。"),
   ("表情豐富", "識別圖片中的主要人物、角色或物體，並詳細描述其特徵（如外觀、表情、姿勢等）。將其轉換為表情誇張生動的LINE貼圖，保持相同的角色和表情特徵。"),
   ("動物角色", "識別圖片中的主要人物、角色或物體，並詳細描述其特徵（如外觀、表情、姿勢等）。將其轉換為可愛動物風格的LINE貼圖，保持相同的角色和表情特徵。"),
   ("食物擬人化", "識別圖片中的主要人物、角色或物體，並詳細描述其特徵（如外觀、表情、姿勢等）。將其轉換為食物擬人化風格的LINE貼圖，保持相同的角色和表情特徵。")]

/-- The default of `sticker_style_prompts.get(...)` (src/app.py:237). -/
def generic_style_prompt : String :=
  "識別圖片中的主要人物、角色或物體，並詳細描述其特徵（如外觀、表情、姿勢等）。將其轉換為適合作為LINE貼圖的風格，保持相同的角色和表情特徵。"

/-- The table entry for the default "可愛卡通" style (src/app.py:231). -/
def cute_cartoon_instruction : String :=
  "識別圖片中的主要人物、角色或物體，並詳細描述其特徵（如外觀、表情、姿勢等）。將其轉換為可愛卡通風格的LINE貼圖，保持相同的角色和表情特徵。"

/-- `sticker_style_prompts.get(params["sticker_style"], generic)`
(src/app.py:237); a `None` key is not in the dictionary, so it falls
back to the default. -/
def style_prompt (sticker_style : Option String) : String :=
  match sticker_style with
  | some s => (sticker_style_prompts.lookup s).getD generic_style_prompt
  | none => generic_style_prompt

/-- The effective description prompt (src/app.py:228-238): the base
prompt unchanged when sticker mode is off, otherwise
`f"{effective_prompt} {style_prompt}"`. -/
def buildDescriptionPrompt (p : RunParameters) : String :=
  if p.line_sticker_mode then p.prompt ++ " " ++ style_prompt p.sticker_style
  else p.prompt

/-- Characters of `l` preceding the first occurrence of `sep`, i.e.
Python `text.split(sep)[0]` for a one-character separator. -/
def takeUntilSep (sep : Char) : List Char → List Char
  | [] => []
  | c :: cs => if c = sep then [] else c :: takeUntilSep sep cs

/-- The key-elements anchor (src/app.py:256):
`text_analysis.split("。")[0] if "。" in text_analysis else text_analysis`. -/
def keyElementsOf (text_analysis : String) : String :=
  if '。' ∈ text_analysis.data then String.mk (takeUntilSep '。' text_analysis.data)
  else text_analysis

/-- The Style line value (src/app.py:261):
`params["sticker_style"] if params["sticker_style"] else "cute cartoon"`;
a `None` or empty style is falsy. -/
def styleForSynthesis (sticker_style : Option String) : String :=
  match sticker_style with
  | some s => if s = "" then "cute cartoon" else s
  | none => "cute cartoon"

/-- The `sticker_enhancement` f-string template (src/app.py:259-266). -/
def sticker_enhancement (key_elements : String) (sticker_style : Option String) : String :=
  "\n                    Create a LINE sticker featuring the exact same character/object as in the original image: "
    ++ key_elements
    ++ "\n                    Style: "
    ++ styleForSynthesis sticker_style
    ++ "\n                    Must maintain the identity and key features of the original subject\n                    Simple clear design with white or transparent background\n                    Expressive and emotionally clear for messaging\n                    Digital art style suitable for LINE stickers\n                    "

/-- The generation prompt (src/app.py:252-269): the description itself,
or in sticker mode `f"{key_elements} - {sticker_enhancement}"`. -/
def buildSynthesisPrompt (text_analysis : String) (p : RunParameters) : String :=
  if p.line_sticker_mode then
    keyElementsOf text_analysis ++ " - " ++ sticker_enhancement (keyElementsOf text_analysis) p.sticker_style
  else text_analysis

/-- One call of `generate_image_from_text` as issued by the loop body
(src/app.py:272-277), with the image it was issued for. -/
structure SynthCall where
  image : ImageId
  prompt : String
  num_outputs : Nat
  num_inference_steps : Nat
  aspect_ratio : String

/-- The mutable state of one run of `process_images`: the two result
dictionaries, the completed-steps counter, the sequence of fractions
pushed to the progress bar, and (instrumentation) the two sequences of
service calls issued. -/
structure PipelineState where
  image_analyses : ImageId → Option String
  generated_images : ImageId → Option (List ImgRef)
  completed_steps : Nat
  reports : List ℚ
  describe_calls : List ImageId
  synth_calls : List SynthCall

/-- State after clearing the result dictionaries and initializing the
progress bar with `st.progress(0)` (src/app.py:217-223). -/
def init_state : PipelineState :=
  { image_analyses := fun _ => none
    generated_images := fun _ => none
    completed_steps := 0
    reports := [0]
    describe_calls := []
    synth_calls := [] }

/-- The body of the per-image loop of `process_images`
(src/app.py:226-282).  A description is recorded only when the call
returns a truthy (non-`None`, non-empty) string; synthesis results are
recorded only when that call returns a truthy (non-`None`, non-empty)
list; the progress bar is updated after each successful unit. -/
def processOne (svc : AIService) (p : RunParameters) (total_steps : Nat)
    (st : PipelineState) (img : ImageId) : PipelineState :=
  let effective_prompt := buildDescriptionPrompt p
  let st0 := { st with describe_calls := st.describe_calls ++ [img] }
  match svc.generate_text_from_image img effective_prompt p.temperature with
  | none => st0
  | some text_analysis =>
    if text_analysis = "" then st0
    else
      let st1 := { st0 with
        image_analyses := fun j => if j = img then some text_analysis else st0.image_analyses j
        completed_steps := st0.completed_steps + 1 }
      let st2 := { st1 with
        reports := st1.reports ++ [(st1.completed_steps : ℚ) / (total_steps : ℚ)] }
      let generation_prompt := buildSynthesisPrompt text_analysis p
      let st3 := { st2 with
        synth_calls := st2.synth_calls ++
          [⟨img, generation_prompt, p.num_images, p.num_inference_steps, p.aspect_ratio⟩] }
      match svc.generate_image_from_text generation_prompt p.num_images p.num_inference_steps p.aspect_ratio with
      | none => st3
      | some generated =>
        if generated = [] then st3
        else
          let st4 := { st3 with
            generated_images := fun j => if j = img then some generated else st3.generated_images j
            completed_steps := st3.completed_steps + p.num_images }
          { st4 with
            reports := st4.reports ++ [(st4.completed_steps : ℚ) / (total_steps : ℚ)] }

/-- `process_images` (src/app.py:210-286): with no uploaded image it
warns and returns without starting a run (`none`); otherwise it clears
the result state, processes every image in order and finally pushes
`progress_bar.progress(1.0)` unconditionally. -/
def process_images (svc : AIService) (p : RunParameters) (images : List ImageId) :
    Option PipelineState :=
  if images = [] then none
  else
    let total_steps := images.length * (1 + p.num_images)
    let final := images.foldl (processOne svc p total_steps) init_state
    some { final with reports := final.reports ++ [1] }

/-- Parameter assembly of `render_sidebar` (src/app.py:140-170): in
sticker mode the aspect ratio is hard-coded to "1:1" and a sticker
style is selected; otherwise the user-selected ratio is used and the
style stays `None`. -/
def render_sidebar_params (line_sticker_mode : Bool) (prompt : String) (temperature : ℚ)
    (num_inference_steps num_images : Nat) (user_aspect_ratio user_sticker_style : String) :
    RunParameters :=
  { prompt := prompt
    temperature := temperature
    num_inference_steps := num_inference_steps
    num_images := num_images
    aspect_ratio := if line_sticker_mode then "1:1" else user_aspect_ratio
    line_sticker_mode := line_sticker_mode
    sticker_style := if line_sticker_mode then some user_sticker_style else none }

/-- Raw result of the description call for one image, with the prompt
and temperature `process_images` passes (src/app.py:241-245). -/
def describeResult (svc : AIService) (p : RunParameters) (img : ImageId) : Option String :=
  svc.generate_text_from_image img (buildDescriptionPrompt p) p.temperature

/-- Description recorded for one image: the raw result when it is
truthy, `none` otherwise (src/app.py:247-248). -/
def describedText (svc : AIService) (p : RunParameters) (img : ImageId) : Option String :=
  match describeResult svc p img with
  | none => none
  | some t => if t = "" then none else some t

/-- Raw result of the synthesis call for description text `t`
(src/app.py:272-277). -/
def synthResult (svc : AIService) (p : RunParameters) (t : String) : Option (List ImgRef) :=
  svc.generate_image_from_text (buildSynthesisPrompt t p) p.num_images p.num_inference_steps p.aspect_ratio

/-- Synthesized images recorded for one image: present only when the
recorded description exists and the synthesis result is truthy
(src/app.py:279-280). -/
def synthImages (svc : AIService) (p : RunParameters) (img : ImageId) : Option (List ImgRef) :=
  match describedText svc p img with
  | none => none
  | some t =>
    match synthResult svc p t with
    | none => none
    | some l => if l = [] then none else some l

/-- Progress units contributed by one image: `1 + num_images` when both
stages complete, `1` when only the description completes, `0` otherwise
(src/app.py:249,281). -/
def contrib (svc : AIService) (p : RunParameters) (img : ImageId) : Nat :=
  if (synthImages svc p img).isSome then 1 + p.num_images
  else if (describedText svc p img).isSome then 1
  else 0

/-- State reached after a truthy description for `img` whose synthesis
call did not return a truthy list. -/
def stDescribed (p : RunParameters) (total_steps : Nat) (st : PipelineState)
    (img : ImageId) (t : String) : PipelineState :=
  { st with
    describe_calls := st.describe_calls ++ [img]
    image_analyses := fun j => if j = img then some t else st.image_analyses j
    completed_steps := st.completed_steps + 1
    reports := st.reports ++ [((st.completed_steps + 1 : Nat) : ℚ) / (total_steps : ℚ)]
    synth_calls := st.synth_calls ++
      [⟨img, buildSynthesisPrompt t p, p.num_images, p.num_inference_steps, p.aspect_ratio⟩] }

/-- State reached after both stages succeed for `img` with description
`t` and image list `l`. -/
def stCompleted (p : RunParameters) (total_steps : Nat) (st : PipelineState)
    (img : ImageId) (t : String) (l : List ImgRef) : PipelineState :=
  { stDescribed p total_steps st img t with
    generated_images := fun j => if j = img then some l else st.generated_images j
    completed_steps := st.completed_steps + 1 + p.num_images
    reports := st.reports ++ [((st.completed_steps + 1 : Nat) : ℚ) / (total_steps : ℚ)]
      ++ [((st.completed_steps + 1 + p.num_images : Nat) : ℚ) / (total_steps : ℚ)] }

/-- One loop iteration described by the recorded outcome of its two
stages; `processOne` is proved equal to this below. -/
def stepResult (svc : AIService) (p : RunParameters) (tot : Nat)
    (st : PipelineState) (img : ImageId) : PipelineState :=
  match describedText svc p img with
  | none => { st with describe_calls := st.describe_calls ++ [img] }
  | some t =>
    match synthImages svc p img with
    | none => stDescribed p tot st img t
    | some l => stCompleted p tot st img t l

/-- Oracle whose two calls always succeed with truthy values. -/
def svcAll : AIService :=
  { generate_text_from_image := fun _ _ _ => some "desc"
    generate_image_from_text := fun _ _ _ _ => some ["u"] }

/-- Oracle whose two calls always raise (return `None`). -/
def svcFail : AIService :=
  { generate_text_from_image := fun _ _ _ => none
    generate_image_from_text := fun _ _ _ _ => none }

/-- Oracle whose description succeeds but whose synthesis raises. -/
def svcDescOnly : AIService :=
  { generate_text_from_image := fun _ _ _ => some "desc"
    generate_image_from_text := fun _ _ _ _ => none }

/-- Oracle whose description raises exactly on image 1. -/
def svcSkipOne : AIService :=
  { generate_text_from_image := fun img _ _ => if img = 1 then none else some "desc"
    generate_image_from_text := fun _ _ _ _ => some ["u"] }

/-- Concrete sticker-mode parameters. -/
def pSticker : RunParameters :=
  { prompt := "基礎提示", temperature := 7/10, num_inference_steps := 3, num_images := 1
    aspect_ratio := "1:1", line_sticker_mode := true, sticker_style := some "可愛卡通" }

/-- Concrete non-sticker parameters. -/
def pPlain : RunParameters :=
  { prompt := "base", temperature := 7/10, num_inference_steps := 3, num_images := 1
    aspect_ratio := "16:9", line_sticker_mode := false, sticker_style := none }

/-- Sticker-mode parameters as `render_sidebar` assembles them when the
user had selected the 16:9 ratio. -/
def pSquare : RunParameters :=
  render_sidebar_params true "p" (7/10) 3 1 "16:9" "可愛卡通"

/-- Final state of the all-success one-image sticker run. -/
def stAll : PipelineState := (process_images svcAll pSticker [0]).getD init_state

/-- Final state of the all-fail one-image sticker run. -/
def stFail : PipelineState := (process_images svcFail pSticker [0]).getD init_state

/-- Final state of the one-image run whose synthesis call raises. -/
def stDescOnly : PipelineState := (process_images svcDescOnly pSticker [0]).getD init_state

/-- Final state of the three-image run whose middle description raises. -/
def stSkip : PipelineState := (process_images svcSkipOne pSticker [0, 1, 2]).getD init_state

/-- Final state of the all-success run under `pSquare`. -/
def stSquare : PipelineState := (process_images svcAll pSquare [0]).getD init_state

example : keyElementsOf "A red fox. It is jumping." = "A red fox. It is jumping." := by decide

example : keyElementsOf "A red fox。It is jumping。" = "A red fox" := by decide

example : buildDescriptionPrompt ⟨"hi", 7/10, 3, 1, "1:1", false, none⟩ = "hi" := rfl

theorem processOne_of_none (svc : AIService) (p : RunParameters) (tot : Nat)
    (st : PipelineState) (img : ImageId) (h : describeResult svc p img = none) :
    processOne svc p tot st img = { st with describe_calls := st.describe_calls ++ [img] } := by
  unfold describeResult at h
  simp only [processOne, h]

theorem processOne_of_empty (svc : AIService) (p : RunParameters) (tot : Nat)
    (st : PipelineState) (img : ImageId) (h : describeResult svc p img = some "") :
    processOne svc p tot st img = { st with describe_calls := st.describe_calls ++ [img] } := by
  unfold describeResult at h
  simp only [processOne, h, if_pos rfl]
  rfl

theorem processOne_of_synth_none (svc : AIService) (p : RunParameters) (tot : Nat)
    (st : PipelineState) (img : ImageId) (t : String)
    (hd : describeResult svc p img = some t) (ht : t ≠ "")
    (hs : synthResult svc p t = none) :
    processOne svc p tot st img = stDescribed p tot st img t := by
  unfold describeResult at hd
  unfold synthResult at hs
  simp only [processOne, hd, if_neg ht, hs]
  rfl

theorem processOne_of_synth_empty (svc : AIService) (p : RunParameters) (tot : Nat)
    (st : PipelineState) (img : ImageId) (t : String)
    (hd : describeResult svc p img = some t) (ht : t ≠ "")
    (hs : synthResult svc p t = some []) :
    processOne svc p tot st img = stDescribed p tot st img t := by
  unfold describeResult at hd
  unfold synthResult at hs
  simp only [processOne, hd, if_neg ht, hs, if_pos rfl]
  rfl

theorem processOne_of_success (svc : AIService) (p : RunParameters) (tot : Nat)
    (st : PipelineState) (img : ImageId) (t : String) (l : List ImgRef)
    (hd : describeResult svc p img = some t) (ht : t ≠ "")
    (hs : synthResult svc p t = some l) (hl : l ≠ []) :
    processOne svc p tot st img = stCompleted p tot st img t l := by
  unfold describeResult at hd
  unfold synthResult at hs
  simp only [processOne, hd, if_neg ht, hs, if_neg hl]
  rfl

theorem describedText_of_none {svc : AIService} {p : RunParameters} {img : ImageId}
    (h : describeResult svc p img = none) : describedText svc p img = none := by
  simp [describedText, h]

theorem describedText_of_empty {svc : AIService} {p : RunParameters} {img : ImageId}
    (h : describeResult svc p img = some "") : describedText svc p img = none := by
  simp [describedText, h]

theorem describedText_of_ok {svc : AIService} {p : RunParameters} {img : ImageId} {t : String}
    (hd : describeResult svc p img = some t) (ht : t ≠ "") :
    describedText svc p img = some t := by
  simp [describedText, hd, ht]

theorem describedText_some_inv {svc : AIService} {p : RunParameters} {img : ImageId} {t : String}
    (h : describedText svc p img = some t) :
    describeResult svc p img = some t ∧ t ≠ "" := by
  unfold describedText at h
  cases hd : describeResult svc p img with
  | none => rw [hd] at h; exact absurd h (by simp)
  | some u =>
    rw [hd] at h
    replace h : (if u = "" then none else some u) = some t := h
    by_cases hu : u = ""
    · rw [if_pos hu] at h; exact absurd h (by simp)
    · rw [if_neg hu] at h
      cases h
      exact ⟨rfl, hu⟩

theorem synthImages_of_descFail {svc : AIService} {p : RunParameters} {img : ImageId}
    (h : describedText svc p img = none) : synthImages svc p img = none := by
  simp [synthImages, h]

theorem synthImages_of_synthFail {svc : AIService} {p : RunParameters} {img : ImageId} {t : String}
    (hd : describedText svc p img = some t) (hs : synthResult svc p t = none) :
    synthImages svc p img = none := by
  simp [synthImages, hd, hs]

theorem synthImages_of_synthEmpty {svc : AIService} {p : RunParameters} {img : ImageId} {t : String}
    (hd : describedText svc p img = some t) (hs : synthResult svc p t = some []) :
    synthImages svc p img = none := by
  simp [synthImages, hd, hs]

theorem synthImages_of_ok {svc : AIService} {p : RunParameters} {img : ImageId} {t : String}
    {l : List ImgRef} (hd : describedText svc p img = some t)
    (hs : synthResult svc p t = some l) (hl : l ≠ []) :
    synthImages svc p img = some l := by
  simp [synthImages, hd, hs, hl]

theorem synthImages_some_inv {svc : AIService} {p : RunParameters} {img : ImageId}
    {l : List ImgRef} (h : synthImages svc p img = some l) :
    ∃ t, describedText svc p img = some t ∧ synthResult svc p t = some l ∧ l ≠ [] := by
  unfold synthImages at h
  cases hd : describedText svc p img with
  | none => rw [hd] at h; exact absurd h (by simp)
  | some t =>
    rw [hd] at h
    replace h :
        (match synthResult svc p t with
          | none => none
          | some l => if l = [] then none else some l) = some l := h
    refine ⟨t, rfl, ?_⟩
    cases hs : synthResult svc p t with
    | none => rw [hs] at h; exact absurd h (by simp)
    | some m =>
      rw [hs] at h
      replace h : (if m = [] then none else some m) = some l := h
      by_cases hm : m = []
      · rw [if_pos hm] at h; exact absurd h (by simp)
      · rw [if_neg hm] at h
        cases h
        exact ⟨rfl, hm⟩

theorem processOne_eq_stepResult (svc : AIService) (p : RunParameters) (tot : Nat)
    (st : PipelineState) (img : ImageId) :
    processOne svc p tot st img = stepResult svc p tot st img := by
  cases hd : describeResult svc p img with
  | none =>
    rw [processOne_of_none svc p tot st img hd]
    simp [stepResult, describedText_of_none hd]
  | some t =>
    by_cases ht : t = ""
    · subst ht
      rw [processOne_of_empty svc p tot st img hd]
      simp [stepResult, describedText_of_empty hd]
    · cases hs : synthResult svc p t with
      | none =>
        rw [processOne_of_synth_none svc p tot st img t hd ht hs]
        simp [stepResult, describedText_of_ok hd ht,
          synthImages_of_synthFail (describedText_of_ok hd ht) hs]
      | some l =>
        by_cases hl : l = []
        · subst hl
          rw [processOne_of_synth_empty svc p tot st img t hd ht hs]
          simp [stepResult, describedText_of_ok hd ht,
            synthImages_of_synthEmpty (describedText_of_ok hd ht) hs]
        · rw [processOne_of_success svc p tot st img t l hd ht hs hl]
          simp [stepResult, describedText_of_ok hd ht,
            synthImages_of_ok (describedText_of_ok hd ht) hs hl]

theorem step_describe_calls (svc : AIService) (p : RunParameters) (tot : Nat)
    (st : PipelineState) (img : ImageId) :
    (processOne svc p tot st img).describe_calls = st.describe_calls ++ [img] := by
  rw [processOne_eq_stepResult]
  unfold stepResult
  cases hd : describedText svc p img with
  | none => rfl
  | some t =>
    cases hs : synthImages svc p img with
    | none => rfl
    | some l => rfl

theorem step_completed (svc : AIService) (p : RunParameters) (tot : Nat)
    (st : PipelineState) (img : ImageId) :
    (processOne svc p tot st img).completed_steps = st.completed_steps + contrib svc p img := by
  rw [processOne_eq_stepResult]
  unfold stepResult contrib
  cases hd : describedText svc p img with
  | none => simp [synthImages_of_descFail hd]
  | some t =>
    cases hs : synthImages svc p img with
    | none => simp [stDescribed]
    | some l => simp [stCompleted, stDescribed, Nat.add_assoc]

theorem step_analyses_other (svc : AIService) (p : RunParameters) (tot : Nat)
    (st : PipelineState) (img j : ImageId) (hj : j ≠ img) :
    (processOne svc p tot st img).image_analyses j = st.image_analyses j := by
  rw [processOne_eq_stepResult]
  unfold stepResult
  cases hd : describedText svc p img with
  | none => rfl
  | some t =>
    cases hs : synthImages svc p img with
    | none => simp [stDescribed, hj]
    | some l => simp [stCompleted, stDescribed, hj]

theorem step_generated_other (svc : AIService) (p : RunParameters) (tot : Nat)
    (st : PipelineState) (img j : ImageId) (hj : j ≠ img) :
    (processOne svc p tot st img).generated_images j = st.generated_images j := by
  rw [processOne_eq_stepResult]
  unfold stepResult
  cases hd : describedText svc p img with
  | none => rfl
  | some t =>
    cases hs : synthImages svc p img with
    | none => rfl
    | some l => simp [stCompleted, stDescribed, hj]

theorem step_analyses_self_none (svc : AIService) (p : RunParameters) (tot : Nat)
    (st : PipelineState) (img : ImageId) (hd : describedText svc p img = none) :
    (processOne svc p tot st img).image_analyses img = st.image_analyses img := by
  rw [processOne_eq_stepResult]
  simp [stepResult, hd]

theorem step_analyses_self_some (svc : AIService) (p : RunParameters) (tot : Nat)
    (st : PipelineState) (img : ImageId) (t : String)
    (hd : describedText svc p img = some t) :
    (processOne svc p tot st img).image_analyses img = some t := by
  rw [processOne_eq_stepResult]
  unfold stepResult
  rw [hd]
  cases hs : synthImages svc p img with
  | none => simp [stDescribed]
  | some l => simp [stCompleted, stDescribed]

theorem step_generated_self_none (svc : AIService) (p : RunParameters) (tot : Nat)
    (st : PipelineState) (img : ImageId) (hs : synthImages svc p img = none) :
    (processOne svc p tot st img).generated_images img = st.generated_images img := by
  rw [processOne_eq_stepResult]
  unfold stepResult
  cases hd : describedText svc p img with
  | none => rfl
  | some t => simp [hs, stDescribed]

theorem step_generated_self_some (svc : AIService) (p : RunParameters) (tot : Nat)
    (st : PipelineState) (img : ImageId) (l : List ImgRef)
    (hl : synthImages svc p img = some l) :
    (processOne svc p tot st img).generated_images img = some l := by
  rw [processOne_eq_stepResult]
  unfold stepResult
  cases hd : describedText svc p img with
  | none => rw [synthImages_of_descFail hd] at hl; exact absurd hl (by simp)
  | some t => simp [hl, stCompleted, stDescribed]

theorem step_synth_calls (svc : AIService) (p : RunParameters) (tot : Nat)
    (st : PipelineState) (img : ImageId) (c : SynthCall)
    (hc : c ∈ (processOne svc p tot st img).synth_calls) :
    c ∈ st.synth_calls ∨ ∃ t, describedText svc p img = some t ∧
      c = ⟨img, buildSynthesisPrompt t p, p.num_images, p.num_inference_steps, p.aspect_ratio⟩ := by
  rw [processOne_eq_stepResult] at hc
  unfold stepResult at hc
  cases hd : describedText svc p img with
  | none => rw [hd] at hc; exact Or.inl hc
  | some t =>
    rw [hd] at hc
    replace hc : c ∈ st.synth_calls ++
        [(⟨img, buildSynthesisPrompt t p, p.num_images, p.num_inference_steps, p.aspect_ratio⟩ : SynthCall)] := by
      cases hs : synthImages svc p img with
      | none => rw [hs] at hc; exact hc
      | some l => rw [hs] at hc; exact hc
    rcases List.mem_append.mp hc with h1 | h2
    · exact Or.inl h1
    · exact Or.inr ⟨t, rfl, List.mem_singleton.mp h2⟩

theorem foldl_describe_calls (svc : AIService) (p : RunParameters) (tot : Nat)
    (images : List ImageId) :
    ∀ st : PipelineState,
      (images.foldl (processOne svc p tot) st).describe_calls = st.describe_calls ++ images := by
  induction images with
  | nil => intro st; simp
  | cons a l ih =>
    intro st
    simp only [List.foldl_cons]
    rw [ih, step_describe_calls]
    simp

theorem foldl_completed (svc : AIService) (p : RunParameters) (tot : Nat)
    (images : List ImageId) :
    ∀ st : PipelineState,
      (images.foldl (processOne svc p tot) st).completed_steps
        = st.completed_steps + (images.map (contrib svc p)).sum := by
  induction images with
  | nil => intro st; simp
  | cons a l ih =>
    intro st
    simp only [List.foldl_cons, List.map_cons, List.sum_cons]
    rw [ih, step_completed]
    omega

theorem foldl_analyses_none (svc : AIService) (p : RunParameters) (tot : Nat)
    {j : ImageId} (hd : describedText svc p j = none) (images : List ImageId) :
    ∀ st : PipelineState,
      (images.foldl (processOne svc p tot) st).image_analyses j = st.image_analyses j := by
  induction images with
  | nil => intro st; simp
  | cons a l ih =>
    intro st
    simp only [List.foldl_cons]
    rw [ih]
    by_cases hja : j = a
    · subst hja; exact step_analyses_self_none svc p tot st j hd
    · exact step_analyses_other svc p tot st a j hja

theorem foldl_analyses_some (svc : AIService) (p : RunParameters) (tot : Nat)
    {j : ImageId} {t : String} (hd : describedText svc p j = some t) (images : List ImageId) :
    ∀ st : PipelineState, st.image_analyses j = some t ∨ j ∈ images →
      (images.foldl (processOne svc p tot) st).image_analyses j = some t := by
  induction images with
  | nil =>
    intro st h
    rcases h with h | h
    · simpa using h
    · simp at h
  | cons a l ih =>
    intro st h
    simp only [List.foldl_cons]
    apply ih
    by_cases hja : j = a
    · subst hja
      exact Or.inl (step_analyses_self_some svc p tot st j t hd)
    · rcases h with h | h
      · exact Or.inl ((step_analyses_other svc p tot st a j hja).trans h)
      · rcases List.mem_cons.mp h with h | h
        · exact absurd h hja
        · exact Or.inr h

theorem foldl_generated_none (svc : AIService) (p : RunParameters) (tot : Nat)
    {j : ImageId} (hs : synthImages svc p j = none) (images : List ImageId) :
    ∀ st : PipelineState,
      (images.foldl (processOne svc p tot) st).generated_images j = st.generated_images j := by
  induction images with
  | nil => intro st; simp
  | cons a l ih =>
    intro st
    simp only [List.foldl_cons]
    rw [ih]
    by_cases hja : j = a
    · subst hja; exact step_generated_self_none svc p tot st j hs
    · exact step_generated_other svc p tot st a j hja

theorem foldl_generated_some (svc : AIService) (p : RunParameters) (tot : Nat)
    {j : ImageId} {l : List ImgRef} (hl : synthImages svc p j = some l) (images : List ImageId) :
    ∀ st : PipelineState, st.generated_images j = some l ∨ j ∈ images →
      (images.foldl (processOne svc p tot) st).generated_images j = some l := by
  induction images with
  | nil =>
    intro st h
    rcases h with h | h
    · simpa using h
    · simp at h
  | cons a m ih =>
    intro st h
    simp only [List.foldl_cons]
    apply ih
    by_cases hja : j = a
    · subst hja
      exact Or.inl (step_generated_self_some svc p tot st j l hl)
    · rcases h with h | h
      · exact Or.inl ((step_generated_other svc p tot st a j hja).trans h)
      · rcases List.mem_cons.mp h with h | h
        · exact absurd h hja
        · exact Or.inr h

theorem foldl_synth_calls (svc : AIService) (p : RunParameters) (tot : Nat)
    (images : List ImageId) :
    ∀ (st : PipelineState) (c : SynthCall), c ∈ (images.foldl (processOne svc p tot) st).synth_calls →
      c ∈ st.synth_calls ∨ ∃ img t, describedText svc p img = some t ∧
        c = ⟨img, buildSynthesisPrompt t p, p.num_images, p.num_inference_steps, p.aspect_ratio⟩ := by
  induction images with
  | nil => intro st c hc; exact Or.inl (by simpa using hc)
  | cons a l ih =>
    intro st c hc
    simp only [List.foldl_cons] at hc
    rcases ih _ c hc with h | h
    · rcases step_synth_calls svc p tot st a c h with h1 | ⟨t, hdt, hce⟩
      · exact Or.inl h1
      · exact Or.inr ⟨a, t, hdt, hce⟩
    · exact Or.inr h

theorem process_images_eq {svc : AIService} {p : RunParameters} {images : List ImageId}
    {st : PipelineState} (h : process_images svc p images = some st) :
    st = { images.foldl (processOne svc p (images.length * (1 + p.num_images))) init_state with
           reports :=
             (images.foldl (processOne svc p (images.length * (1 + p.num_images)))
               init_state).reports ++ [1] } := by
  unfold process_images at h
  by_cases he : images = []
  · rw [if_pos he] at h; exact absurd h (by simp)
  · rw [if_neg he] at h
    exact (Option.some.inj h).symm

theorem contrib_le (svc : AIService) (p : RunParameters) (img : ImageId) :
    contrib svc p img ≤ 1 + p.num_images := by
  unfold contrib
  split_ifs <;> omega

theorem contrib_eq_iff (svc : AIService) (p : RunParameters) (img : ImageId)
    (hM : 1 ≤ p.num_images) :
    contrib svc p img = 1 + p.num_images ↔ (synthImages svc p img).isSome = true := by
  unfold contrib
  cases hb : (synthImages svc p img).isSome with
  | true => simp [hb]
  | false =>
    simp [hb]
    split_ifs <;> omega

theorem sum_map_le (f : ImageId → Nat) (c : Nat) (l : List ImageId)
    (hf : ∀ a ∈ l, f a ≤ c) : (l.map f).sum ≤ l.length * c := by
  induction l with
  | nil => simp
  | cons a t ih =>
    simp only [List.map_cons, List.sum_cons, List.length_cons]
    have h1 := hf a (List.mem_cons_self a t)
    have h2 := ih (fun b hb => hf b (List.mem_cons_of_mem a hb))
    have h3 : (t.length + 1) * c = t.length * c + c := by ring
    omega

theorem sum_map_eq_iff (f : ImageId → Nat) (c : Nat) (l : List ImageId)
    (hf : ∀ a ∈ l, f a ≤ c) :
    (l.map f).sum = l.length * c ↔ ∀ a ∈ l, f a = c := by
  induction l with
  | nil => simp
  | cons a t ih =>
    simp only [List.map_cons, List.sum_cons, List.length_cons]
    have h1 := hf a (List.mem_cons_self a t)
    have h2 : (t.map f).sum ≤ t.length * c :=
      sum_map_le f c t (fun b hb => hf b (List.mem_cons_of_mem a hb))
    have h3 := ih (fun b hb => hf b (List.mem_cons_of_mem a hb))
    have hm : (t.length + 1) * c = t.length * c + c := by ring
    constructor
    · intro h b hb
      have hfa : f a = c ∧ (t.map f).sum = t.length * c := by omega
      rcases List.mem_cons.mp hb with rfl | hbt
      · exact hfa.1
      · exact (h3.mp hfa.2) b hbt
    · intro h
      have hfa : f a = c := h a (List.mem_cons_self a t)
      have hts : (t.map f).sum = t.length * c :=
        h3.mpr (fun b hb => h b (List.mem_cons_of_mem a hb))
      omega

theorem sum_map_const (f : ImageId → Nat) (c : Nat) (l : List ImageId)
    (hl : ∀ j ∈ l, f j = c) : (l.map f).sum = l.length * c := by
  induction l with
  | nil => simp
  | cons a t ih =>
    simp only [List.map_cons, List.sum_cons, List.length_cons]
    have hfa : f a = c := hl a (List.mem_cons_self a t)
    have hts := ih (fun b hb => hl b (List.mem_cons_of_mem a hb))
    have hm : (t.length + 1) * c = t.length * c + c := by ring
    omega

theorem sum_map_rem (f : ImageId → Nat) (c : Nat) (k : ImageId) (l : List ImageId) :
    l.Nodup → k ∈ l → f k = 0 → (∀ j ∈ l, j ≠ k → f j = c) →
      (l.map f).sum = (l.length - 1) * c := by
  induction l with
  | nil => intro _ hk _ _; simp at hk
  | cons a t ih =>
    intro hnd hk hk0 hl
    rcases List.mem_cons.mp hk with rfl | hkt
    · have hknt : k ∉ t := (List.nodup_cons.mp hnd).1
      have hall : ∀ j ∈ t, f j = c :=
        fun j hj => hl j (List.mem_cons_of_mem k hj) (fun he => hknt (he ▸ hj))
      simp only [List.map_cons, List.sum_cons, List.length_cons, hk0]
      rw [sum_map_const f c t hall]
      simp
    · have hak : a ≠ k := fun he => (List.nodup_cons.mp hnd).1 (he ▸ hkt)
      have hfa : f a = c := hl a (List.mem_cons_self a t) hak
      have ih' := ih (List.nodup_cons.mp hnd).2 hkt hk0
        (fun j hj hjk => hl j (List.mem_cons_of_mem a hj) hjk)
      simp only [List.map_cons, List.sum_cons, List.length_cons, hfa, ih']
      have hpos : 1 ≤ t.length := List.length_pos.mpr (List.ne_nil_of_mem hkt)
      have hm : ∀ n : Nat, 1 ≤ n → c + (n - 1) * c = n * c := by
        intro n hn
        have h1 : n - 1 + 1 = n := by omega
        calc c + (n - 1) * c = (n - 1 + 1) * c := by ring
          _ = n * c := by rw [h1]
      rw [hm t.length hpos]
      simp

theorem foldl_generated_not_mem (svc : AIService) (p : RunParameters) (tot : Nat)
    {j : ImageId} (images : List ImageId) :
    ∀ st : PipelineState, j ∉ images →
      (images.foldl (processOne svc p tot) st).generated_images j = st.generated_images j := by
  induction images with
  | nil => intro st _; simp
  | cons a l ih =>
    intro st hj
    have hja : j ≠ a := fun he => hj (he ▸ List.mem_cons_self a l)
    have hjl : j ∉ l := fun hm => hj (List.mem_cons_of_mem a hm)
    simp only [List.foldl_cons]
    rw [ih _ hjl, step_generated_other svc p tot st a j hja]

theorem run_destruct {svc : AIService} {p : RunParameters} {images : List ImageId}
    {st : PipelineState} (h : process_images svc p images = some st) :
    st.image_analyses = (images.foldl (processOne svc p (images.length * (1 + p.num_images))) init_state).image_analyses ∧
    st.generated_images = (images.foldl (processOne svc p (images.length * (1 + p.num_images))) init_state).generated_images ∧
    st.completed_steps = (images.foldl (processOne svc p (images.length * (1 + p.num_images))) init_state).completed_steps ∧
    st.describe_calls = (images.foldl (processOne svc p (images.length * (1 + p.num_images))) init_state).describe_calls ∧
    st.synth_calls = (images.foldl (processOne svc p (images.length * (1 + p.num_images))) init_state).synth_calls ∧
    st.reports = (images.foldl (processOne svc p (images.length * (1 + p.num_images))) init_state).reports ++ [1] := by
  have he := process_images_eq h
  subst he
  exact ⟨rfl, rfl, rfl, rfl, rfl, rfl⟩

theorem run_generated_implies_analysis {svc : AIService} {p : RunParameters}
    {images : List ImageId} {st : PipelineState}
    (h : process_images svc p images = some st) (j : ImageId)
    (hg : (st.generated_images j).isSome = true) :
    (st.image_analyses j).isSome = true := by
  obtain ⟨ha, hgm, _, _, _, _⟩ := run_destruct h
  rw [hgm] at hg
  rw [ha]
  by_cases hj : j ∈ images
  · cases hs : synthImages svc p j with
    | none =>
      rw [foldl_generated_none svc p _ hs images init_state] at hg
      simp [init_state] at hg
    | some l =>
      obtain ⟨t, hdt, _, _⟩ := synthImages_some_inv hs
      rw [foldl_analyses_some svc p _ hdt images init_state (Or.inr hj)]
      rfl
  · rw [foldl_generated_not_mem svc p _ images init_state hj] at hg
    simp [init_state] at hg

theorem takeUntilSep_eq_takeWhile (sep : Char) (l : List Char) :
    takeUntilSep sep l = l.takeWhile (fun c => !(c == sep)) := by
  induction l with
  | nil => rfl
  | cons c cs ih =>
    by_cases h : c = sep
    · subst h; simp [takeUntilSep, List.takeWhile_cons]
    · simp [takeUntilSep, List.takeWhile_cons, h, ih]

/-- Claim C1 (amended): the only key-elements delimiter recognized by the
composer is the ideographic full stop `。`; the anchor is the maximal
prefix of the description preceding the first `。`, the whole description
when no `。` occurs, and on "A red fox。It is jumping。" it is
"A red fox"; in sticker mode the anchor is the leading prefix of the
synthesis prompt. -/
theorem synthesisPrompt_anchor_characterization (d : String) :
    keyElementsOf d = String.mk (d.data.takeWhile (fun c => !(c == '。'))) ∧
    ('。' ∉ d.data → keyElementsOf d = d) ∧
    keyElementsOf "A red fox。It is jumping。" = "A red fox" ∧
    (∀ p : RunParameters, p.line_sticker_mode = true →
      ∃ rest, buildSynthesisPrompt d p = keyElementsOf d ++ rest) := by
  refine ⟨?_, ?_, by decide, ?_⟩
  · unfold keyElementsOf
    by_cases h : '。' ∈ d.data
    · rw [if_pos h, takeUntilSep_eq_takeWhile]
    · rw [if_neg h]
      have hall : d.data.takeWhile (fun c => !(c == '。')) = d.data := by
        rw [List.takeWhile_eq_self_iff]
        intro x hx
        have hxne : x ≠ '。' := fun he => h (he ▸ hx)
        simp [hxne]
      rw [hall]
  · intro h
    unfold keyElementsOf
    rw [if_neg h]
  · intro p hm
    refine ⟨" - " ++ sticker_enhancement (keyElementsOf d) p.sticker_style, ?_⟩
    unfold buildSynthesisPrompt
    rw [hm]
    simp [String.append_assoc]

/-- Witness: on a description with no ideographic full stop, the anchor
is the whole description. -/
theorem synthesisPrompt_anchor_witness : keyElementsOf "neko" = "neko" :=
  (synthesisPrompt_anchor_characterization "neko").2.1 (by decide)

/-- Claim C1 as stated is false at its own example: the ASCII period is
not a delimiter, so the anchor of "A red fox. It is jumping." is the
whole description and not "A red fox". -/
theorem synthesisPrompt_anchor_ascii_period_cex :
    keyElementsOf "A red fox. It is jumping." = "A red fox. It is jumping." ∧
    keyElementsOf "A red fox. It is jumping." ≠ "A red fox" := by
  exact ⟨by decide, by decide⟩

/-- Claim C3: with sticker mode off, the description prompt is the base
prompt unchanged and the synthesis prompt is the description unchanged. -/
theorem non_sticker_mode_identity (p : RunParameters) (h : p.line_sticker_mode = false) :
    buildDescriptionPrompt p = p.prompt ∧ ∀ d, buildSynthesisPrompt d p = d := by
  constructor
  · unfold buildDescriptionPrompt
    rw [h]
    simp
  · intro d
    unfold buildSynthesisPrompt
    rw [h]
    simp

/-- Witness for C3 at concrete parameters. -/
theorem non_sticker_mode_identity_witness :
    buildDescriptionPrompt pPlain = "base" ∧ buildSynthesisPrompt "A cat" pPlain = "A cat" :=
  ⟨(non_sticker_mode_identity pPlain rfl).1, (non_sticker_mode_identity pPlain rfl).2 "A cat"⟩

/-- Claim C5 (amended): the composer is total on degenerate descriptions;
the empty description yields the empty anchor, but a whitespace-only
description yields the whitespace itself (not the empty string) as
anchor; moreover the pipeline treats an empty description as falsy:
nothing is recorded and synthesis is not attempted for that image. -/
theorem degenerate_description_behavior (d : String) :
    keyElementsOf "" = "" ∧
    ((∀ c ∈ d.data, c.isWhitespace) → keyElementsOf d = d) ∧
    (∀ (svc : AIService) (p : RunParameters) (tot : Nat) (st : PipelineState) (img : ImageId),
      describeResult svc p img = some "" →
        processOne svc p tot st img = { st with describe_calls := st.describe_calls ++ [img] }) := by
  refine ⟨by decide, ?_, ?_⟩
  · intro hw
    unfold keyElementsOf
    have h : '。' ∉ d.data := by
      intro hm
      exact absurd (hw _ hm) (by decide)
    rw [if_neg h]
  · intro svc p tot st img h
    exact processOne_of_empty svc p tot st img h

/-- Witness: a whitespace-only description is returned unchanged. -/
theorem degenerate_description_witness : keyElementsOf " " = " " :=
  (degenerate_description_behavior " ").2.1 (by decide)

/-- Claim C5 as stated is false: the anchor of the whitespace-only
description " " is " ", not the empty string. -/
theorem whitespace_anchor_not_empty_cex :
    keyElementsOf " " = " " ∧ keyElementsOf " " ≠ "" := by
  exact ⟨by decide, by decide⟩

/-- Claim C6: in sticker mode with a recognized style, the description
prompt carries the base prompt as a leading prefix and the style
instruction selected from the fixed table as a trailing suffix; with an
unrecognized or absent style it appends the generic
suitable-for-sticker-use instruction instead. -/
theorem description_prompt_sticker_shape (p : RunParameters) (hm : p.line_sticker_mode = true) :
    (∀ s instr, p.sticker_style = some s → sticker_style_prompts.lookup s = some instr →
      (∃ rest, buildDescriptionPrompt p = p.prompt ++ rest) ∧
      (∃ pre, buildDescriptionPrompt p = pre ++ instr)) ∧
    ((∀ s, p.sticker_style = some s → sticker_style_prompts.lookup s = none) →
      buildDescriptionPrompt p = p.prompt ++ " " ++ generic_style_prompt) := by
  have hbd : buildDescriptionPrompt p = p.prompt ++ " " ++ style_prompt p.sticker_style := by
    unfold buildDescriptionPrompt
    rw [hm]
    simp
  constructor
  · intro s instr hss hlk
    have hsp : style_prompt p.sticker_style = instr := by
      rw [hss]
      have hred : style_prompt (some s)
          = (sticker_style_prompts.lookup s).getD generic_style_prompt := rfl
      rw [hred, hlk]
      rfl
    constructor
    · exact ⟨" " ++ instr, by rw [hbd, hsp, String.append_assoc]⟩
    · exact ⟨p.prompt ++ " ", by rw [hbd, hsp]⟩
  · intro hnone
    have hsp : style_prompt p.sticker_style = generic_style_prompt := by
      cases hss : p.sticker_style with
      | none => rfl
      | some s =>
        have hred : style_prompt (some s)
            = (sticker_style_prompts.lookup s).getD generic_style_prompt := rfl
        rw [hred, hnone s hss]
        rfl
    rw [hbd, hsp]

/-- Witness for C6: the recognized "可愛卡通" style produces a prompt with
the base prompt leading and the table instruction trailing. -/
theorem description_prompt_sticker_witness :
    (∃ rest, buildDescriptionPrompt pSticker = pSticker.prompt ++ rest) ∧
    (∃ pre, buildDescriptionPrompt pSticker = pre ++ cute_cartoon_instruction) :=
  (description_prompt_sticker_shape pSticker rfl).1 "可愛卡通" cute_cartoon_instruction rfl rfl

/-- Claim C10: the synthesis Style line uses the caller-supplied style
verbatim whenever it is non-empty, recognized or not; "cute cartoon" is
substituted only for an absent or empty style; the description prompt
instead replaces any style missing from the table with the generic
fallback instruction. -/
theorem synthesis_style_verbatim_vs_description_fallback :
    (∀ s : String, s ≠ "" → styleForSynthesis (some s) = s) ∧
    styleForSynthesis none = "cute cartoon" ∧
    styleForSynthesis (some "") = "cute cartoon" ∧
    (∀ ke ss, ∃ a b, sticker_enhancement ke ss
        = a ++ "\n                    Style: " ++ styleForSynthesis ss ++ b) ∧
    (∀ s, sticker_style_prompts.lookup s = none →
      style_prompt (some s) = generic_style_prompt) := by
  refine ⟨?_, rfl, rfl, ?_, ?_⟩
  · intro s hs
    have hred : styleForSynthesis (some s) = if s = "" then "cute cartoon" else s := rfl
    rw [hred, if_neg hs]
  · intro ke ss
    exact ⟨"\n                    Create a LINE sticker featuring the exact same character/object as in the original image: "
        ++ ke,
      "\n                    Must maintain the identity and key features of the original subject\n                    Simple clear design with white or transparent background\n                    Expressive and emotionally clear for messaging\n                    Digital art style suitable for LINE stickers\n                    ", rfl⟩
  · intro s h
    have hred : style_prompt (some s)
        = (sticker_style_prompts.lookup s).getD generic_style_prompt := rfl
    rw [hred, h]
    rfl

/-- Witness for C10: an unrecognized non-empty style is used verbatim in
the synthesis Style line. -/
theorem synthesis_style_verbatim_witness : styleForSynthesis (some "水彩") = "水彩" :=
  synthesis_style_verbatim_vs_description_fallback.1 "水彩" (by decide)

/-- Claim C4: a synthesis call is issued for an image only after its
description call returned a truthy (successful, non-empty) text, with
that text as the synthesis input; and recorded synthesized images imply
a recorded description for the same image. -/
theorem synthesis_requires_description (svc : AIService) (p : RunParameters)
    (images : List ImageId) (st : PipelineState)
    (h : process_images svc p images = some st) :
    (∀ c ∈ st.synth_calls, ∃ t,
      svc.generate_text_from_image c.image (buildDescriptionPrompt p) p.temperature = some t ∧
      t ≠ "" ∧ c.prompt = buildSynthesisPrompt t p) ∧
    (∀ j, (st.generated_images j).isSome = true → (st.image_analyses j).isSome = true) := by
  obtain ⟨ha, hg, hc, hdc, hsc, hr⟩ := run_destruct h
  constructor
  · intro c hcmem
    rw [hsc] at hcmem
    rcases foldl_synth_calls svc p _ images init_state c hcmem with h0 | ⟨img, t, hdt, hce⟩
    · simp [init_state] at h0
    · obtain ⟨hdr, hne⟩ := describedText_some_inv hdt
      unfold describeResult at hdr
      subst hce
      exact ⟨t, hdr, hne, rfl⟩
  · exact fun j => run_generated_implies_analysis h j

/-- Witness for C4: in the all-success one-image run, image 0 has
recorded images, hence a recorded description. -/
theorem synthesis_requires_description_witness :
    (stAll.image_analyses 0).isSome = true :=
  (synthesis_requires_description svcAll pSticker [0] stAll rfl).2 0 rfl

/-- Claim C7: with sticker mode on, the sidebar hard-codes the aspect
ratio to "1:1" whatever the user selected, and every synthesis call of
the resulting run carries aspect ratio "1:1". -/
theorem sticker_mode_forces_square_aspect (svc : AIService) (images : List ImageId)
    (st : PipelineState) (prompt : String) (temperature : ℚ)
    (steps nimg : Nat) (user_aspect user_style : String)
    (h : process_images svc
      (render_sidebar_params true prompt temperature steps nimg user_aspect user_style) images
      = some st) :
    (render_sidebar_params true prompt temperature steps nimg user_aspect user_style).aspect_ratio
      = "1:1" ∧
    ∀ c ∈ st.synth_calls, c.aspect_ratio = "1:1" := by
  constructor
  · rfl
  · intro c hcmem
    obtain ⟨_, _, _, _, hsc, _⟩ := run_destruct h
    rw [hsc] at hcmem
    rcases foldl_synth_calls _ _ _ images init_state c hcmem with h0 | ⟨img, t, _, hce⟩
    · simp [init_state] at h0
    · subst hce
      rfl

/-- Witness for C7: the user selected 16:9 but sticker mode forces the
run parameters to aspect ratio 1:1. -/
theorem sticker_mode_forces_square_witness :
    (render_sidebar_params true "p" (7/10) 3 1 "16:9" "可愛卡通").aspect_ratio = "1:1" :=
  (sticker_mode_forces_square_aspect svcAll [0] stSquare "p" (7/10) 3 1 "16:9" "可愛卡通" rfl).1

/-- Claim C9: when an image's description succeeds but its synthesis call
raises, the run keeps the description, records no images for that image,
still attempts every image of the batch in order, and recorded images
always come with a recorded description, so the three per-image states
are distinguishable. -/
theorem synthesis_failure_description_only (svc : AIService) (p : RunParameters)
    (images : List ImageId) (st : PipelineState) (k : ImageId) (t : String)
    (hrun : process_images svc p images = some st) (hk : k ∈ images)
    (hdesc : svc.generate_text_from_image k (buildDescriptionPrompt p) p.temperature = some t)
    (ht : t ≠ "")
    (hsy : svc.generate_image_from_text (buildSynthesisPrompt t p) p.num_images
      p.num_inference_steps p.aspect_ratio = none) :
    st.image_analyses k = some t ∧ st.generated_images k = none ∧
    st.describe_calls = images ∧
    (∀ j, (st.generated_images j).isSome = true → (st.image_analyses j).isSome = true) := by
  obtain ⟨ha, hg, hc, hdc, hsc, hr⟩ := run_destruct hrun
  have hdr : describeResult svc p k = some t := hdesc
  have hdt : describedText svc p k = some t := describedText_of_ok hdr ht
  have hsr : synthResult svc p t = none := hsy
  have hsi : synthImages svc p k = none := synthImages_of_synthFail hdt hsr
  refine ⟨?_, ?_, ?_, fun j => run_generated_implies_analysis hrun j⟩
  · rw [ha]
    exact foldl_analyses_some svc p _ hdt images init_state (Or.inr hk)
  · rw [hg, foldl_generated_none svc p _ hsi images init_state]
    rfl
  · rw [hdc, foldl_describe_calls]
    simp [init_state]

/-- Witness for C9: the run whose synthesis always raises keeps the
description of image 0. -/
theorem synthesis_failure_description_only_witness :
    stDescOnly.image_analyses 0 = some "desc" :=
  (synthesis_failure_description_only svcDescOnly pSticker [0] stDescOnly 0 "desc" rfl
    (by decide) rfl (by decide) rfl).1

/-- Claim C2 (amended): the internal counter never exceeds the total
`images * (1 + imagesPerInput)`, equals it exactly when every image
completed both stages, and is strictly smaller when any image failed at
either stage; but the progress bar is set to the full bar unconditionally
after the loop, so the final reported progress is always 1. -/
theorem progress_counter_and_final_report (svc : AIService) (p : RunParameters)
    (images : List ImageId) (st : PipelineState)
    (hrun : process_images svc p images = some st) (hM : 1 ≤ p.num_images) :
    st.completed_steps ≤ images.length * (1 + p.num_images) ∧
    (st.completed_steps = images.length * (1 + p.num_images) ↔
      ∀ img ∈ images, (synthImages svc p img).isSome = true) ∧
    st.reports.getLast? = some 1 := by
  obtain ⟨ha, hg, hc, hdc, hsc, hr⟩ := run_destruct hrun
  rw [hc, hr, foldl_completed]
  have hinit : init_state.completed_steps = 0 := rfl
  rw [hinit, Nat.zero_add]
  have hle : ∀ a ∈ images, contrib svc p a ≤ 1 + p.num_images :=
    fun a _ => contrib_le svc p a
  refine ⟨sum_map_le (contrib svc p) (1 + p.num_images) images hle, ?_, ?_⟩
  · rw [sum_map_eq_iff (contrib svc p) (1 + p.num_images) images hle]
    constructor
    · intro h img hm
      exact (contrib_eq_iff svc p img hM).mp (h img hm)
    · intro h a hm
      exact (contrib_eq_iff svc p a hM).mpr (h a hm)
  · rw [List.getLast?_append_cons]
    rfl

/-- Witness for the amended C2: in an all-success run the counter attains
the total and the final report is the full bar. -/
theorem progress_counter_witness : stAll.reports.getLast? = some 1 :=
  (progress_counter_and_final_report svcAll pSticker [0] stAll rfl (by decide)).2.2

/-- Claim C2 as stated is false: in this one-image run the description
raises, the image never reaches Completed and the counter stays at 0 of
2 units, yet the final reported progress is the full bar because
`progress_bar.progress(1.0)` runs unconditionally after the loop. -/
theorem final_report_full_despite_failure_cex :
    process_images svcFail pSticker [0] = some stFail ∧
    stFail.reports.getLast? = some 1 ∧
    stFail.completed_steps = 0 ∧
    [0].length * (1 + pSticker.num_images) = 2 ∧
    (synthImages svcFail pSticker 0).isSome = false ∧
    (describedText svcFail pSticker 0).isSome = false := by
  exact ⟨rfl, rfl, rfl, rfl, rfl, rfl⟩

/-- Claim C8: when image k's description call raises and every other
call succeeds with truthy results, the run still attempts every image in
input order, every other image ends with a recorded description and
recorded images, image k ends with neither, and the counter counts
exactly the successfully completed units. -/
theorem single_description_failure_isolated (svc : AIService) (p : RunParameters)
    (images : List ImageId) (st : PipelineState) (k : ImageId)
    (hrun : process_images svc p images = some st)
    (hnd : images.Nodup) (hk : k ∈ images)
    (hkfail : svc.generate_text_from_image k (buildDescriptionPrompt p) p.temperature = none)
    (hok : ∀ j ∈ images, j ≠ k → ∃ t,
      svc.generate_text_from_image j (buildDescriptionPrompt p) p.temperature = some t ∧ t ≠ "")
    (hsy : ∀ s, ∃ l,
      svc.generate_image_from_text s p.num_images p.num_inference_steps p.aspect_ratio = some l ∧
      l ≠ []) :
    st.describe_calls = images ∧
    (∀ j ∈ images, j ≠ k →
      (st.image_analyses j).isSome = true ∧ (st.generated_images j).isSome = true) ∧
    st.image_analyses k = none ∧ st.generated_images k = none ∧
    st.completed_steps = (images.length - 1) * (1 + p.num_images) := by
  obtain ⟨ha, hg, hc, hdc, hsc, hr⟩ := run_destruct hrun
  have hdk : describedText svc p k = none := describedText_of_none hkfail
  have hsk : synthImages svc p k = none := synthImages_of_descFail hdk
  have hcon : ∀ j ∈ images, j ≠ k →
      ∃ t l, describedText svc p j = some t ∧ synthImages svc p j = some l := by
    intro j hj hjk
    obtain ⟨t, hdt, htne⟩ := hok j hj hjk
    have hdt2 : describedText svc p j = some t := describedText_of_ok hdt htne
    obtain ⟨l, hl, hlne⟩ := hsy (buildSynthesisPrompt t p)
    exact ⟨t, l, hdt2, synthImages_of_ok hdt2 hl hlne⟩
  refine ⟨?_, ?_, ?_, ?_, ?_⟩
  · rw [hdc, foldl_describe_calls]
    simp [init_state]
  · intro j hj hjk
    obtain ⟨t, l, hdt, hsl⟩ := hcon j hj hjk
    constructor
    · rw [ha, foldl_analyses_some svc p _ hdt images init_state (Or.inr hj)]
      rfl
    · rw [hg, foldl_generated_some svc p _ hsl images init_state (Or.inr hj)]
      rfl
  · rw [ha, foldl_analyses_none svc p _ hdk images init_state]
    rfl
  · rw [hg, foldl_generated_none svc p _ hsk images init_state]
    rfl
  · rw [hc, foldl_completed]
    have h0 : contrib svc p k = 0 := by
      unfold contrib
      rw [hsk, hdk]
      simp
    have hcj : ∀ j ∈ images, j ≠ k → contrib svc p j = 1 + p.num_images := by
      intro j hj hjk
      obtain ⟨t, l, hdt, hsl⟩ := hcon j hj hjk
      unfold contrib
      rw [hsl]
      simp
    rw [sum_map_rem (contrib svc p) (1 + p.num_images) k images hnd hk h0 hcj]
    simp [init_state]

/-- Witness for C8: three images, the middle description raises, the
counter ends at exactly the units of the two completed images. -/
theorem single_description_failure_witness :
    stSkip.completed_steps = ([0, 1, 2].length - 1) * (1 + pSticker.num_images) :=
  (single_description_failure_isolated svcSkipOne pSticker [0, 1, 2] stSkip 1 rfl
    (by decide) (by decide) rfl
    (fun j hj hjk => ⟨"desc", by simp [svcSkipOne, hjk], by decide⟩)
    (fun s => ⟨["u"], rfl, by decide⟩)).2.2.2.2
